import Mathlib

/-!
# Verification of the ChatRoom-cpp chat hub (src/main.cc)

Shallow embedding of the core of `src/main.cc`:

* `MessageRepository` (bounded message history, disk persistence),
* `UserRepository` (online-user registry),
* `ChatBot` (conversation building, bot broadcast helper),
* `ChatWebSocket` (per-connection protocol handler: login / msg / logout
  frames, connection close), and
* a global multi-session transition system built from the handler.

JSON values (`nlohmann::json`) are modelled by the inductive `Json` below;
numbers are modelled as `Int` (the code only ever stores and reads
millisecond timestamps, via `get<long long>`), objects as association
lists whose lookup behaviour matches the C++ map (claims here depend only
on per-key lookup, never on the key order used by the underlying
`std::map`).  C++ exceptions are modelled with `Except`/`Option` and, in
the frame handler, by threading the mutated state explicitly so that a
thrown-and-caught exception keeps the mutations performed before the
throw, exactly as in the C++ code.
-/

set_option autoImplicit false

namespace ChatRoom

/-- `nlohmann::json` values, with numbers restricted to integers
(the code only produces and consumes integral `time` values). -/
inductive Json where
  | null
  | bool (b : Bool)
  | num (n : Int)
  | str (s : String)
  | arr (elems : List Json)
  | obj (fields : List (String × Json))

namespace Json

/-- Key lookup on an object's field list (first entry with the key). -/
def lookupKey (k : String) : List (String × Json) → Option Json
  | [] => none
  | (k', v) :: rest => if k' = k then some v else lookupKey k rest

/-- `j.find(k)` / `j[k]` read access: `none` on non-objects and missing
keys. -/
def find? (j : Json) (k : String) : Option Json :=
  match j with
  | .obj fields => lookupKey k fields
  | _ => none

/-- `j.contains(k)`: `false` on non-objects, as in `nlohmann::json`. -/
def hasKey (j : Json) (k : String) : Bool :=
  (j.find? k).isSome

/-- Write `fields[k] = v` on an object's field list: replace in place if
the key is present, append otherwise.  (The C++ `std::map` keeps keys
sorted instead; only per-key lookup matters to the properties proved
here.) -/
def setFields (k : String) (v : Json) : List (String × Json) → List (String × Json)
  | [] => [(k, v)]
  | (k', v') :: rest => if k' = k then (k', v) :: rest else (k', v') :: setFields k v rest

/-- `j[k] = v`.  On `null`, `operator[]` turns the value into a
one-field object (nlohmann semantics); on other non-objects it throws in
C++, but every call site below reaches `setKey` only with an object (the
preceding `value()` extraction throws first otherwise), so those cases
are modelled as the identity. -/
def setKey (j : Json) (k : String) (v : Json) : Json :=
  match j with
  | .obj fields => .obj (setFields k v fields)
  | .null => .obj [(k, v)]
  | other => other

/-- `j.value(k, default)` for `std::string` targets: throws
(`Except.error`) on non-objects (type_error.306) and on present
non-string values (type_error.302); returns the default when the key is
absent. -/
def valueStr (j : Json) (k : String) (dflt : String) : Except Unit String :=
  match j with
  | .obj fields =>
    match lookupKey k fields with
    | none => .ok dflt
    | some (.str s) => .ok s
    | some _ => .error ()
  | _ => .error ()

/-- `j.get<long long>()`: succeeds only on numbers in this model. -/
def getInt (j : Json) : Except Unit Int :=
  match j with
  | .num n => .ok n
  | _ => .error ()

end Json

/-! ## String constants used by the code -/

def kTime : String := "time"

def kType : String := "type"

def kId : String := "id"

def kUserId : String := "userId"

def kNickname : String := "nickname"

def kAvatar : String := "avatar"

def kContent : String := "content"

def kState : String := "state"

def tLogin : String := "login"

def tMsg : String := "msg"

def tLogout : String := "logout"

def tHistory : String := "history"

/-! ## MessageRepository -/

/-- `MAX_HISTORY` from `main.cc`. -/
def MAX_HISTORY : Nat := 10000

/-- `messages_.push_back(msg); if (messages_.size() > cap) pop_front();` -/
def pushCap (cap : Nat) (buf : List Json) (m : Json) : List Json :=
  let b := buf ++ [m]
  if cap < b.length then b.drop 1 else b

/-- The `"msg_" + std::to_string(time)` id scheme. -/
def idOfTime (t : Int) : String := "msg_" ++ toString t

/-- The record-filling phase of `MessageRepository::saveMessage(msg,
defaultType)`.

Fills `time` (with the current time `now`) if absent, `type` (with
`defaultType`) if absent, and `id` (as `msg_<time>`) if absent.
Returns `none` when the C++ code would throw inside its
`try` block and return `nullopt`: generating the id requires
`msg["time"].get<long long>()`, which throws unless `time` holds a
number, and `operator[]` on a non-null non-object throws before that
(modelled by `setKey` leaving the value unchanged, after which the
`time` lookup fails). -/
def fillRecord (msg : Json) (defaultType : String) (now : Int) : Option Json :=
  let m1 := if msg.hasKey kTime then msg else msg.setKey kTime (.num now)
  let m2 := if m1.hasKey kType then m1 else m1.setKey kType (.str defaultType)
  if m2.hasKey kId then some m2
  else
    match m2.find? kTime with
    | some (.num t) => some (m2.setKey kId (.str (idOfTime t)))
    | _ => none

/-- The final phase of `saveMessage`: on a successfully filled record,
append it under the lock and evict the front if over capacity. -/
def saveMessage (msg : Json) (defaultType : String) (now : Int) (buf : List Json) :
    Option (Json × List Json) :=
  match fillRecord msg defaultType now with
  | some m => some (m, pushCap MAX_HISTORY buf m)
  | none => none

/-- `MessageRepository::getHistory()`: the buffer as a JSON array, in
deque order (oldest first). -/
def getHistory (buf : List Json) : Json := .arr buf

/-- `MessageRepository::save()` (flush at shutdown): the JSON array
value written to `message.json`, built by pushing each buffered message
in order.  The file is modelled by its parsed JSON content; the
byte-level `dump(4)`/`operator>>` round trip of `nlohmann::json` is
taken as exact. -/
def flushToDisk (buf : List Json) : Json :=
  .arr (buf.foldl (fun acc m => acc ++ [m]) [])

/-- `MessageRepository::load()` (startup): `none` models a missing or
unparseable file (logged, history kept as is, never thrown to the
caller); a non-array value is ignored; an array replaces the buffer by
pushing each element in order. -/
def loadFromDisk (file : Option Json) (cur : List Json) : List Json :=
  match file with
  | none => cur
  | some (.arr ms) => ms.foldl (fun acc m => acc ++ [m]) []
  | some _ => cur

/-! ## UserRepository -/

/-- The `User` struct. -/
structure User where
  id : String
  nickname : String
  avatar : String

/-- The `users_` map, modelled as an association list; the claims below
depend only on per-key lookup, not on the hash order of
`std::unordered_map`. -/
abbrev UserMap := List (String × User)

/-- Lookup in `users_` (`users_.find(id)`). -/
def findUser (users : UserMap) (id : String) : Option User :=
  match users with
  | [] => none
  | (k, u) :: rest => if k = id then some u else findUser rest id

/-- The error string returned by a failed `addUser`. -/
def userAlreadyOnlineMsg : String := "用户已在线"

/-- `UserRepository::addUser`: check-then-insert under one lock; fails
without mutating when the id is present. -/
def addUser (users : UserMap) (id nickname avatar : String) :
    (Bool × String) × UserMap :=
  if (findUser users id).isSome then ((false, userAlreadyOnlineMsg), users)
  else ((true, ""), users ++ [(id, ⟨id, nickname, avatar⟩)])

/-- `UserRepository::removeUser`: `users_.erase(id)` removes the entry
with that key (at most one exists). -/
def removeUser (users : UserMap) (id : String) : UserMap :=
  List.eraseP (fun p => p.1 == id) users

/-- `UserRepository::userExists`. -/
def userExists (users : UserMap) (id : String) : Bool :=
  (findUser users id).isSome

/-- One call against the `UserRepository`, for sequences of operations. -/
inductive RepoOp where
  | add (id nickname avatar : String)
  | remove (id : String)

/-- Apply one repository call (dropping `addUser`'s return value). -/
def applyOp (users : UserMap) : RepoOp → UserMap
  | .add id n a => (addUser users id n a).2
  | .remove id => removeUser users id

/-- Run a sequence of repository calls from the initial (empty)
repository. -/
def applyOps (ops : List RepoOp) : UserMap :=
  ops.foldl applyOp []

/-! ## ChatBot -/

def strEmpty : String := ""

def botUserId : String := "bot_001"

def botNickname : String := "ChatBot"

def botAvatar : String := "🤖"

def rSystem : String := "system"

def rUser : String := "user"

/-- The fixed system instruction of `ChatBot::process` (the C++ source
splits it over adjacent string literals, concatenated here). -/
def systemPrompt : String :=
  "你是一个多人聊天室中乐于助人的聊天机器人。" ++
  "用户的消息格式为: [昵称] (ID: <id>): <消息内容>。" ++
  "当你回复时，只发送你的消息内容，不要包含你自己的昵称/ID前缀。" ++
  "你要乐于助人、友好且简洁。" ++
  "回复用户消息时，只针对最后一条用户消息进行回复。" ++
  "请记住在消息内容的第一行使用 @昵称 " ++
  "来称呼用户，然后在第二行开始编写消息内容。"

/-- The attributed rewriting of one history record. -/
def attributedLine (nickname userId content : String) : String :=
  "[" ++ nickname ++ "] (ID: " ++ userId ++ "): " ++ content

/-- The history loop of `ChatBot::process`: records missing any of
`userId`/`nickname`/`content` are skipped; a record carrying one of them
with a non-string value makes `std::string x = item[...]` throw
(type_error), which propagates out of `process` (there is no catch
inside it), modelled as `Except.error`. -/
def buildUserLines : List Json → Except Unit (List (String × String))
  | [] => .ok []
  | item :: rest =>
    if item.hasKey kUserId && item.hasKey kNickname && item.hasKey kContent then
      match item.find? kUserId with
      | some (.str uid) =>
        match item.find? kNickname with
        | some (.str nick) =>
          match item.find? kContent with
          | some (.str content) =>
            match buildUserLines rest with
            | .ok tail => .ok ((rUser, attributedLine nick uid content) :: tail)
            | .error e => .error e
          | _ => .error ()
        | _ => .error ()
      | _ => .error ()
    else buildUserLines rest

/-- The conversation (`messages` array of the request body) that
`ChatBot::process` sends to the completion endpoint, as a list of
`(role, content)` pairs: the system instruction followed by the
attributed history lines.  An `Except.error` means the request is never
sent (the type error aborts `process`). -/
def buildMessages (historyCtx : Json) : Except Unit (List (String × String)) :=
  match historyCtx with
  | .arr items =>
    match buildUserLines items with
    | .ok lines => .ok ((rSystem, systemPrompt) :: lines)
    | .error e => .error e
  | _ => .ok [(rSystem, systemPrompt)]

/-- `ChatBot::broadcastBotMessage(content)`: build the bot-identity
message, save it, and broadcast the saved record; returns the new
history buffer and the list of broadcast payloads. -/
def broadcastBotMessage (content : String) (now : Int) (buf : List Json) :
    List Json × List Json :=
  let j : Json := .obj [(kType, .str tMsg), (kUserId, .str botUserId),
    (kNickname, .str botNickname), (kAvatar, .str botAvatar), (kContent, .str content)]
  match saveMessage j tMsg now buf with
  | some (m, buf') => (buf', [m])
  | none => (buf, [])

/-! ## Session handler (`ChatWebSocket`) -/

/-- The per-connection `UserContext` attached to each WebSocket. -/
structure UserContext where
  userId : String := ""
  nickname : String := ""
  avatar : String := ""
  loggedIn : Bool := false

/-- The state a frame handler invocation can read and mutate: the
session's own context plus the global repositories. -/
structure SState where
  ctx : UserContext
  users : UserMap
  history : List Json

/-- A payload sent to the requesting connection itself (`ws->send`). -/
inductive Sent where
  | pong
  | frame (j : Json)

/-- Observable result of one `handleNewMessage` invocation.  `sent` are
the payloads sent to this connection, `broadcasts` the payloads handed
to `globalBroadcaster.broadcast` (as JSON values; the C++ broadcasts
`m->dump()`), `botConvs` the conversations handed to the completion
endpoint by a synchronous `ChatBot::process` call, `forceClosed` whether
`ws->forceClose()` ran, and `erred` whether the outer `try` of
`handleNewMessage` caught an exception (the "logged and dropped"
path). -/
structure HResult where
  state : SState
  sent : List Sent
  broadcasts : List Json
  botConvs : List (List (String × String))
  forceClosed : Bool
  erred : Bool

/-- A handler invocation that did nothing. -/
def okRes (s : SState) : HResult :=
  { state := s, sent := [], broadcasts := [], botConvs := [],
    forceClosed := false, erred := false }

/-- A handler invocation aborted by a caught exception before any state
change or output. -/
def errRes (s : SState) : HResult :=
  { state := s, sent := [], broadcasts := [], botConvs := [],
    forceClosed := false, erred := true }

def unknownUserNickname : String := "未知用户"

def logoutContent : String := "连接已关闭"

/-- The welcome message broadcast by the bot after a successful login
(two adjacent C++ string literals, concatenated). -/
def welcomeMessage (nickname : String) : String :=
  "@" ++ nickname ++ " 你好! 欢迎来到聊天室! 我是聊天室的 AI 助手 " ++
  "ChatBot。使用 @ChatBot 召唤我，就能与我进行对话交流"

/-- `ChatWebSocket::processLogout(ctx)`: guarded by `loggedIn`; removes
the identity from the registry, clears the flag, saves and broadcasts a
logout record.  Returns the new context, registry, history, and the
broadcast payloads. -/
def processLogout (ctx : UserContext) (users : UserMap) (history : List Json)
    (now : Int) : UserContext × UserMap × List Json × List Json :=
  if ctx.loggedIn = false then (ctx, users, history, [])
  else
    match saveMessage (.obj [(kType, .str tLogout), (kUserId, .str ctx.userId),
        (kNickname, .str ctx.nickname), (kAvatar, .str ctx.avatar),
        (kContent, .str logoutContent)]) tLogout now history with
    | some (m, h') =>
      ({ ctx with loggedIn := false }, removeUser users ctx.userId, h', [m])
    | none =>
      ({ ctx with loggedIn := false }, removeUser users ctx.userId, history, [])

/-- The substring test `content.find("@ChatBot") != std::string::npos`. -/
def containsToken (s pat : String) : Bool :=
  (List.range (s.data.length + 1)).any (fun i => pat.data.isPrefixOf (s.data.drop i))

def botTrigger : String := "@ChatBot"

/-- The `login` branch of `handleNewMessage`.  Field extraction happens
in source order (`userId`, then `nickname`, then `avatar`), each via
`j.value(...)`, whose type errors abort the handler (`errRes`) before
any state change. -/
def loginBranch (s : SState) (j : Json) (now : Int) : HResult :=
  match j.valueStr kUserId strEmpty with
  | .error _ => errRes s
  | .ok uid =>
    if uid = strEmpty then okRes s
    else
      match j.valueStr kNickname unknownUserNickname with
      | .error _ => errRes s
      | .ok nick =>
        match j.valueStr kAvatar strEmpty with
        | .error _ => errRes s
        | .ok avt =>
          match addUser s.users uid nick avt with
          | ((false, _), _) =>
            { state := s, sent := [.frame (j.setKey kState (.bool false))],
              broadcasts := [], botConvs := [], forceClosed := false, erred := false }
          | ((true, _), users') =>
            match saveMessage (j.setKey kState (.bool true)) tLogin now s.history with
            | some (m, h1) =>
              match broadcastBotMessage (welcomeMessage nick) now h1 with
              | (h2, botBcs) =>
                { state := ⟨⟨uid, nick, avt, true⟩, users', h2⟩,
                  sent := if s.history.isEmpty then []
                    else [.frame (.obj [(kType, .str tHistory),
                      (kContent, getHistory s.history)])],
                  broadcasts := m :: botBcs, botConvs := [],
                  forceClosed := false, erred := false }
            | none =>
              { state := ⟨⟨uid, nick, avt, true⟩, users', s.history⟩,
                sent := if s.history.isEmpty then []
                  else [.frame (.obj [(kType, .str tHistory),
                    (kContent, getHistory s.history)])],
                broadcasts := [], botConvs := [], forceClosed := false,
                erred := false }

/-- The `msg` branch of `handleNewMessage`.  Note the source order: the
identity fields are stamped onto the frame, the frame is saved, and only
then does the log line extract `content` via `j.value` — so a present
non-string `content` raises a type error *after* the save and *before*
the broadcast.  A bot trigger calls `ChatBot::process` on the
post-save history; a type error there aborts after the broadcast. -/
def msgBranch (s : SState) (j : Json) (now : Int) : HResult :=
  if s.ctx.loggedIn = false then okRes s
  else
    match saveMessage (((j.setKey kUserId (.str s.ctx.userId)).setKey kNickname
        (.str s.ctx.nickname)).setKey kAvatar (.str s.ctx.avatar)) tMsg now
        s.history with
    | none => okRes s
    | some (m, h1) =>
      match (((j.setKey kUserId (.str s.ctx.userId)).setKey kNickname
          (.str s.ctx.nickname)).setKey kAvatar (.str s.ctx.avatar)).valueStr
          kContent strEmpty with
      | .error _ =>
        { state := ⟨s.ctx, s.users, h1⟩, sent := [], broadcasts := [],
          botConvs := [], forceClosed := false, erred := true }
      | .ok content =>
        if containsToken content botTrigger then
          match buildMessages (getHistory h1) with
          | .ok conv =>
            { state := ⟨s.ctx, s.users, h1⟩, sent := [], broadcasts := [m],
              botConvs := [conv], forceClosed := false, erred := false }
          | .error _ =>
            { state := ⟨s.ctx, s.users, h1⟩, sent := [], broadcasts := [m],
              botConvs := [], forceClosed := false, erred := true }
        else
          { state := ⟨s.ctx, s.users, h1⟩, sent := [], broadcasts := [m],
            botConvs := [], forceClosed := false, erred := false }

/-- The `logout` branch: guarded by `loggedIn`, then `processLogout`
followed by `ws->forceClose()`. -/
def logoutBranch (s : SState) (now : Int) : HResult :=
  if s.ctx.loggedIn = false then okRes s
  else
    match processLogout s.ctx s.users s.history now with
    | (ctx', users', h', bcs) =>
      { state := ⟨ctx', users', h'⟩, sent := [], broadcasts := bcs,
        botConvs := [], forceClosed := true, erred := false }

/-- An inbound text frame as seen by `handleNewMessage`: the literal
`"ping"` probe, a frame on which `json::parse` throws, or a parsed JSON
value. -/
inductive Frame where
  | ping
  | malformed
  | json (j : Json)

/-- `ChatWebSocket::handleNewMessage` on one text frame.  All `nowMs()`
calls during the invocation are modelled as returning the same value
`now`; none of the properties proved below compares two timestamps taken
within one invocation. -/
def handleFrame (s : SState) (f : Frame) (now : Int) : HResult :=
  match f with
  | .ping =>
    { state := s, sent := [.pong], broadcasts := [], botConvs := [],
      forceClosed := false, erred := false }
  | .malformed => errRes s
  | .json j =>
    match j.valueStr kType strEmpty with
    | .error _ => errRes s
    | .ok t =>
      if t = tLogin then loginBranch s j now
      else if t = tMsg then msgBranch s j now
      else if t = tLogout then logoutBranch s now
      else okRes s

/-- `ChatWebSocket::handleConnectionClosed`: run the logout procedure if
the session is logged in (the broadcaster-set removal has no bearing on
the repositories and is modelled at the global level). -/
def handleConnectionClosed (s : SState) (now : Int) : SState × List Json :=
  if s.ctx.loggedIn then
    match processLogout s.ctx s.users s.history now with
    | (ctx', users', h', bcs) => (⟨ctx', users', h'⟩, bcs)
  else (s, [])

/-! ## Global multi-session system

One live connection per `Session`, identified by its index in
`GState.sessions`.  `isOpen` is the transport-level liveness used by the
broadcaster membership; a closed session keeps its (dead) context. -/

structure Session where
  ctx : UserContext
  isOpen : Bool

structure GState where
  sessions : List Session
  users : UserMap
  history : List Json

/-- Transport events driving the system: a new connection
(`handleNewConnection`, which attaches a fresh `UserContext`), delivery
of one text frame to session `i`, and a transport-level disconnect of
session `i`. -/
inductive Event where
  | connect
  | deliver (i : Nat) (f : Frame) (now : Int)
  | disconnect (i : Nat) (now : Int)

/-- One transition.  Delivery to a closed or unknown session does
nothing (the transport never delivers there).  A `logout` frame ends
with `ws->forceClose()`; the `handleConnectionClosed` callback that
drogon then fires sees `loggedIn = false`, so its only effect is the
broadcaster removal, modelled here by clearing `isOpen` in the same
step. -/
def step (g : GState) (e : Event) : GState :=
  match e with
  | .connect =>
    { g with sessions := g.sessions ++ [⟨{}, true⟩] }
  | .deliver i f now =>
    match g.sessions[i]? with
    | some ⟨ctx0, true⟩ =>
      match handleFrame ⟨ctx0, g.users, g.history⟩ f now with
      | ⟨st, _, _, _, fc, _⟩ =>
        { sessions := g.sessions.set i ⟨st.ctx, !fc⟩,
          users := st.users, history := st.history }
    | some ⟨_, false⟩ => g
    | none => g
  | .disconnect i now =>
    match g.sessions[i]? with
    | some ⟨ctx0, true⟩ =>
      match handleConnectionClosed ⟨ctx0, g.users, g.history⟩ now with
      | (st, _) =>
        { sessions := g.sessions.set i ⟨st.ctx, false⟩,
          users := st.users, history := st.history }
    | some ⟨_, false⟩ => g
    | none => g

/-- Startup state: no sessions, empty registry, history as loaded from
disk. -/
def initialState (h : List Json) : GState := ⟨[], [], h⟩

/-- States reachable by any interleaving of transport events. -/
inductive Reach : GState → Prop where
  | init (h : List Json) : Reach (initialState h)
  | step (g : GState) (e : Event) : Reach g → Reach (step g e)

/-- A frame that would enter the `login` branch of the handler. -/
def isLoginFrame (f : Frame) : Bool :=
  match f with
  | .json j =>
    match j.valueStr kType strEmpty with
    | .ok t => t == tLogin
    | .error _ => false
  | _ => false

/-- States reachable when no login frame is ever delivered to a session
that is already logged in (the code has no guard for that case; this
restriction is what the re-login counterexample to C5 forces). -/
inductive ReachNR : GState → Prop where
  | init (h : List Json) : ReachNR (initialState h)
  | connect (g : GState) : ReachNR g → ReachNR (step g .connect)
  | deliver (g : GState) (i : Nat) (f : Frame) (now : Int) :
      ReachNR g →
      (isLoginFrame f = true →
        ∀ sess, g.sessions[i]? = some sess → sess.ctx.loggedIn = false) →
      ReachNR (step g (.deliver i f now))
  | disconnect (g : GState) (i : Nat) (now : Int) :
      ReachNR g → ReachNR (step g (.disconnect i now))

/-- Session `i` is a live, logged-in owner of identity `id`. -/
def owns (g : GState) (i : Nat) (id : String) : Prop :=
  ∃ sess, g.sessions[i]? = some sess ∧ sess.isOpen = true ∧
    sess.ctx.loggedIn = true ∧ sess.ctx.userId = id

/-- The registry-coincidence invariant of C5: an id is in the registry
iff exactly one live session is logged in under it. -/
def RegistryInv (g : GState) : Prop :=
  ∀ id : String,
    ((findUser g.users id).isSome ↔ ∃ i, owns g i id) ∧
    (∀ i j, owns g i id → owns g j id → i = j)

/-- Induction-strengthened invariant: the registry coincidence plus
duplicate-freedom of the registry keys. -/
def StrongInv (g : GState) : Prop :=
  RegistryInv g ∧ (g.users.map Prod.fst).Nodup

/-! ## Spec-side auxiliary definitions -/

/-- The `n` most recent elements of a list, in order (the whole list
when it is shorter than `n`). -/
def lastN {α : Type} (n : Nat) (l : List α) : List α :=
  l.drop (l.length - n)

/-- Run a sequence of `saveMessage` calls (message, default type, clock
value) against a buffer; returns the final buffer and the list of
records returned by the successful calls, in call order. -/
def saveAll (calls : List (Json × String × Int)) (buf : List Json) :
    List Json × List Json :=
  match calls with
  | [] => (buf, [])
  | c :: rest =>
    match saveMessage c.1 c.2.1 c.2.2 buf with
    | some (r, buf') =>
      let t := saveAll rest buf'
      (t.1, r :: t.2)
    | none => saveAll rest buf

/-- The attributed line one history record contributes to the bot
conversation: `some` exactly when the record has all of
`userId`/`nickname`/`content` with string values (the only case the
history loop of `ChatBot::process` can turn into a line without
throwing). -/
def lineOf (item : Json) : Option (String × String) :=
  if item.hasKey kUserId && item.hasKey kNickname && item.hasKey kContent then
    match item.find? kUserId, item.find? kNickname, item.find? kContent with
    | some (.str uid), some (.str nick), some (.str content) =>
      some (rUser, attributedLine nick uid content)
    | _, _, _ => none
  else none

/-! ## List lemmas -/

theorem foldl_append_singleton (l : List Json) :
    ∀ acc : List Json, l.foldl (fun a m => a ++ [m]) acc = acc ++ l := by
  induction l with
  | nil => intro acc; simp
  | cons x xs ih => intro acc; simp [List.foldl_cons, ih]

theorem pushCap_eq_lastN {cap : Nat} {buf : List Json} (m : Json)
    (h : buf.length ≤ cap) : pushCap cap buf m = lastN cap (buf ++ [m]) := by
  simp only [pushCap, lastN, List.length_append, List.length_cons,
    List.length_nil]
  split
  · congr 1
    omega
  · rw [Nat.sub_eq_zero_of_le (by omega), List.drop_zero]

theorem pushCap_length_le {cap : Nat} {buf : List Json} (m : Json)
    (h : buf.length ≤ cap) : (pushCap cap buf m).length ≤ cap := by
  simp only [pushCap]
  split <;> rename_i hc <;>
    simp only [List.length_drop, List.length_append, List.length_cons,
      List.length_nil] at hc ⊢ <;> omega

theorem lastN_append_left (cap : Nat) (l ms : List Json) :
    lastN cap (lastN cap l ++ ms) = lastN cap (l ++ ms) := by
  unfold lastN
  have h1 : l.drop (l.length - cap) ++ ms = (l ++ ms).drop (l.length - cap) := by
    rw [List.drop_append_eq_append_drop,
      Nat.sub_eq_zero_of_le (Nat.sub_le _ _), List.drop_zero]
  have h2 : ((l ++ ms).drop (l.length - cap)).length - cap
      = (l ++ ms).length - cap - (l.length - cap) := by
    simp only [List.length_drop, List.length_append]
    omega
  rw [h1, h2, List.drop_drop]
  congr 1
  simp only [List.length_append]
  omega

theorem lastN_append_right {n : Nat} {pre l : List Json} (h : n ≤ l.length) :
    lastN n (pre ++ l) = lastN n l := by
  unfold lastN
  have h1 : (pre ++ l).length - n = pre.length + (l.length - n) := by
    simp only [List.length_append]
    omega
  simp only [h1, List.drop_append]

theorem lastN_of_length_le {n : Nat} {l : List Json} (h : l.length ≤ n) :
    lastN n l = l := by
  unfold lastN
  rw [Nat.sub_eq_zero_of_le h, List.drop_zero]

attribute [irreducible] lastN

/-! ## MessageRepository lemmas -/

theorem saveMessage_buf_eq {msg : Json} {d : String} {now : Int}
    {buf : List Json} {r : Json} {buf' : List Json}
    (h : saveMessage msg d now buf = some (r, buf')) :
    buf' = pushCap MAX_HISTORY buf r := by
  unfold saveMessage at h
  cases hf : fillRecord msg d now with
  | none => rw [hf] at h; cases h
  | some m =>
    rw [hf] at h
    simp only [Option.some.injEq, Prod.mk.injEq] at h
    obtain ⟨h1, h2⟩ := h
    subst h1
    exact h2.symm

theorem saveAll_fst : ∀ (calls : List (Json × String × Int)) (buf : List Json),
    buf.length ≤ MAX_HISTORY →
    (saveAll calls buf).1 = lastN MAX_HISTORY (buf ++ (saveAll calls buf).2) := by
  intro calls
  induction calls with
  | nil =>
    intro buf h
    show buf = lastN MAX_HISTORY (buf ++ [])
    rw [List.append_nil, lastN_of_length_le h]
  | cons c rest ih =>
    intro buf h
    simp only [saveAll]
    cases hsv : saveMessage c.1 c.2.1 c.2.2 buf with
    | none => exact ih buf h
    | some p =>
      obtain ⟨r, buf'⟩ := p
      have hbuf' : buf' = pushCap MAX_HISTORY buf r := saveMessage_buf_eq hsv
      have hlen : buf'.length ≤ MAX_HISTORY := by
        rw [hbuf']
        exact pushCap_length_le r h
      show (saveAll rest buf').1
          = lastN MAX_HISTORY (buf ++ r :: (saveAll rest buf').2)
      rw [ih buf' hlen, hbuf', pushCap_eq_lastN r h, lastN_append_left,
        List.append_assoc, List.singleton_append]

/-- C1: after more than `MAX_HISTORY` successful `saveMessage` calls
(starting from any buffer within the capacity bound, as every reachable
buffer is), `getHistory` returns exactly the `MAX_HISTORY` most recently
saved records, in save order. -/
theorem bounded_history (calls : List (Json × String × Int)) (buf0 : List Json)
    (hinv : buf0.length ≤ MAX_HISTORY)
    (hN : MAX_HISTORY < (saveAll calls buf0).2.length) :
    getHistory (saveAll calls buf0).1 =
      .arr (lastN MAX_HISTORY (saveAll calls buf0).2) := by
  show Json.arr (saveAll calls buf0).1
      = Json.arr (lastN MAX_HISTORY (saveAll calls buf0).2)
  rw [saveAll_fst calls buf0 hinv, lastN_append_right (Nat.le_of_lt hN)]

theorem saveAll_emptyObj_len : ∀ (n : Nat) (buf : List Json),
    (saveAll (List.replicate n ((Json.obj []), tMsg, (0 : Int))) buf).2.length = n := by
  intro n
  induction n with
  | zero => intro buf; rfl
  | succ k ih =>
    intro buf
    have hred : saveMessage (Json.obj []) tMsg 0 buf
        = some ((Json.obj [(kTime, Json.num 0), (kType, Json.str tMsg),
            (kId, Json.str (idOfTime 0))]),
          pushCap MAX_HISTORY buf (Json.obj [(kTime, Json.num 0),
            (kType, Json.str tMsg), (kId, Json.str (idOfTime 0))])) := rfl
    rw [List.replicate_succ]
    simp only [saveAll, hred, List.length_cons, ih]

/-- Witness for `bounded_history`: 10001 saves of the empty object into
an empty buffer. -/
theorem bounded_history_witness :
    ([] : List Json).length ≤ MAX_HISTORY ∧
    MAX_HISTORY <
      (saveAll (List.replicate 10001 ((Json.obj []), tMsg, (0 : Int))) []).2.length ∧
    getHistory (saveAll (List.replicate 10001 ((Json.obj []), tMsg, (0 : Int))) []).1 =
      .arr (lastN MAX_HISTORY
        (saveAll (List.replicate 10001 ((Json.obj []), tMsg, (0 : Int))) []).2) := by
  have h1 : ([] : List Json).length ≤ MAX_HISTORY := Nat.zero_le MAX_HISTORY
  have h2 : MAX_HISTORY <
      (saveAll (List.replicate 10001 ((Json.obj []), tMsg, (0 : Int))) []).2.length := by
    rw [saveAll_emptyObj_len]
    decide
  exact ⟨h1, h2, bounded_history _ _ h1 h2⟩

/-- C8: flushing a history buffer to the persistence file and loading
it back (with no saves in between) yields the same message sequence,
element for element and in order, whatever the buffer held before the
load. -/
theorem roundtrip_persistence (buf cur : List Json) :
    loadFromDisk (some (flushToDisk buf)) cur = buf := by
  show (buf.foldl (fun a m => a ++ [m]) []).foldl (fun a m => a ++ [m]) [] = buf
  rw [foldl_append_singleton, List.nil_append, foldl_append_singleton,
    List.nil_append]

/-! ## UserRepository lemmas -/

theorem findUser_eq_none_iff (users : UserMap) (id : String) :
    findUser users id = none ↔ ∀ p ∈ users, p.1 ≠ id := by
  induction users with
  | nil => simp [findUser]
  | cons p rest ih =>
    obtain ⟨k, u⟩ := p
    by_cases hk : k = id
    · subst hk
      simp [findUser]
    · simp [findUser, hk, ih]

theorem findUser_eq_none_of_not_mem {users : UserMap} {id : String}
    (h : id ∉ users.map Prod.fst) : findUser users id = none := by
  rw [findUser_eq_none_iff]
  intro p hp hpe
  exact h (hpe ▸ List.mem_map_of_mem Prod.fst hp)

theorem not_mem_of_findUser_eq_none {users : UserMap} {id : String}
    (h : findUser users id = none) : id ∉ users.map Prod.fst := by
  intro hmem
  obtain ⟨p, hp, hpe⟩ := List.mem_map.1 hmem
  exact (findUser_eq_none_iff users id).1 h p hp hpe

theorem applyOp_keys_nodup {users : UserMap}
    (h : (users.map Prod.fst).Nodup) (op : RepoOp) :
    ((applyOp users op).map Prod.fst).Nodup := by
  cases op with
  | add id n a =>
    simp only [applyOp, addUser]
    split
    · exact h
    · rename_i hnone
      have hn : findUser users id = none := by
        cases hf : findUser users id with
        | none => rfl
        | some u => rw [hf] at hnone; simp at hnone
      rw [List.map_append]
      rw [List.nodup_append]
      refine ⟨h, List.nodup_singleton id, ?_⟩
      intro x hx hx'
      simp only [List.map_cons, List.map_nil, List.mem_singleton] at hx'
      subst hx'
      exact not_mem_of_findUser_eq_none hn hx
  | remove id =>
    simp only [applyOp, removeUser]
    exact h.sublist (List.Sublist.map Prod.fst (List.eraseP_sublist users))

theorem foldl_applyOp_nodup : ∀ (ops : List RepoOp) (users : UserMap),
    (users.map Prod.fst).Nodup → ((ops.foldl applyOp users).map Prod.fst).Nodup := by
  intro ops
  induction ops with
  | nil => intro users h; simpa
  | cons op rest ih => intro users h; exact ih _ (applyOp_keys_nodup h op)

/-- C2: across every sequence of `addUser`/`removeUser` calls from the
empty repository, the key set stays duplicate-free (at most one entry
per id); `addUser` on a present id fails and returns the map unchanged;
`removeUser` on an absent id is a no-op. -/
theorem userRepo_uniqueness :
    (∀ ops : List RepoOp, ((applyOps ops).map Prod.fst).Nodup) ∧
    (∀ (users : UserMap) (id n a : String), (findUser users id).isSome = true →
      addUser users id n a = ((false, userAlreadyOnlineMsg), users)) ∧
    (∀ (users : UserMap) (id : String), findUser users id = none →
      removeUser users id = users) := by
  refine ⟨fun ops => foldl_applyOp_nodup ops [] (by simp), ?_, ?_⟩
  · intro users id n a h
    simp [addUser, h]
  · intro users id h
    unfold removeUser
    apply List.eraseP_of_forall_not
    intro p hp
    have hne := (findUser_eq_none_iff users id).1 h p hp
    simp [hne]

/-! ## Json object lemmas -/

theorem hasKey_obj (fs : List (String × Json)) (k : String) :
    (Json.obj fs).hasKey k = (Json.lookupKey k fs).isSome := rfl

theorem find?_obj (fs : List (String × Json)) (k : String) :
    (Json.obj fs).find? k = Json.lookupKey k fs := rfl

theorem setKey_obj (fs : List (String × Json)) (k : String) (v : Json) :
    (Json.obj fs).setKey k v = .obj (Json.setFields k v fs) := rfl

theorem lookupKey_setFields_self (k : String) (v : Json)
    (fs : List (String × Json)) :
    Json.lookupKey k (Json.setFields k v fs) = some v := by
  induction fs with
  | nil => simp [Json.setFields, Json.lookupKey]
  | cons p rest ih =>
    obtain ⟨k', v'⟩ := p
    by_cases h : k' = k <;> simp [Json.setFields, Json.lookupKey, h, ih]

theorem lookupKey_setFields_ne {k k2 : String} (h : k2 ≠ k) (v : Json)
    (fs : List (String × Json)) :
    Json.lookupKey k2 (Json.setFields k v fs) = Json.lookupKey k2 fs := by
  have hne : k ≠ k2 := fun he => h he.symm
  induction fs with
  | nil => simp [Json.setFields, Json.lookupKey, hne]
  | cons p rest ih =>
    obtain ⟨k', v'⟩ := p
    by_cases hk : k' = k
    · subst hk
      simp [Json.setFields, Json.lookupKey, hne]
    · simp [Json.setFields, Json.lookupKey, hk, ih]

/-- Witness for `userRepo_uniqueness`, at a one-entry repository. -/
theorem userRepo_uniqueness_witness :
    addUser [(("u1" : String), ⟨("u1"), ("n"), ("a")⟩)] ("u1") ("x") ("y")
      = ((false, userAlreadyOnlineMsg), [(("u1" : String), ⟨("u1"), ("n"), ("a")⟩)]) ∧
    removeUser [] ("u2") = ([] : UserMap) := by
  constructor
  · exact userRepo_uniqueness.2.1 _ _ _ _ (by decide)
  · exact userRepo_uniqueness.2.2 [] ("u2") rfl

/-- C7: for a well-formed message (a JSON object whose `time` field, if
present, is a number), `saveMessage` succeeds and appends exactly the
returned record at the back (evicting the front if over capacity); the
record keeps the caller's `time`/`type`/`id` when present, fills `time`
with the clock value, `type` with the default, and `id` with
`msg_<timestamp>` when absent, and every other field is unchanged. -/
theorem saveMessage_fields (fields : List (String × Json)) (d : String)
    (now : Int) (buf : List Json)
    (htime : ∀ v, Json.lookupKey kTime fields = some v →
      ∃ t0 : Int, v = Json.num t0) :
    ∃ m : Json,
      saveMessage (.obj fields) d now buf = some (m, pushCap MAX_HISTORY buf m) ∧
      m.find? kTime = (match Json.lookupKey kTime fields with
        | some v => some v
        | none => some (.num now)) ∧
      m.find? kType = (match Json.lookupKey kType fields with
        | some v => some v
        | none => some (.str d)) ∧
      m.find? kId = (match Json.lookupKey kId fields with
        | some v => some v
        | none => some (.str (idOfTime (match Json.lookupKey kTime fields with
            | some (Json.num t0) => t0
            | _ => now)))) ∧
      (∀ k, k ≠ kTime → k ≠ kType → k ≠ kId →
        m.find? k = Json.lookupKey k fields) := by
  have hTyTi : kType ≠ kTime := by decide
  have hTiTy : kTime ≠ kType := by decide
  have hIdTi : kId ≠ kTime := by decide
  have hTiId : kTime ≠ kId := by decide
  have hIdTy : kId ≠ kType := by decide
  have hTyId : kType ≠ kId := by decide
  cases hT : Json.lookupKey kTime fields with
  | some v =>
    obtain ⟨t0, rfl⟩ := htime v hT
    cases hTy : Json.lookupKey kType fields with
    | some w =>
      cases hI : Json.lookupKey kId fields with
      | some u =>
        refine ⟨.obj fields, ?_, ?_, ?_, ?_, ?_⟩
        · simp [saveMessage, fillRecord, hasKey_obj, find?_obj, hT, hTy, hI]
        · simp [find?_obj, hT]
        · simp [find?_obj, hTy]
        · simp [find?_obj, hI]
        · intro k _ _ _
          rfl
      | none =>
        refine ⟨.obj (Json.setFields kId (.str (idOfTime t0)) fields),
          ?_, ?_, ?_, ?_, ?_⟩
        · simp [saveMessage, fillRecord, hasKey_obj, find?_obj, setKey_obj,
            hT, hTy, hI]
        · simp [find?_obj, lookupKey_setFields_ne hTiId, hT]
        · simp [find?_obj, lookupKey_setFields_ne hTyId, hTy]
        · simp [find?_obj, lookupKey_setFields_self, hI, hT]
        · intro k _ _ hk3
          simp [find?_obj, lookupKey_setFields_ne hk3]
    | none =>
      cases hI : Json.lookupKey kId fields with
      | some u =>
        refine ⟨.obj (Json.setFields kType (.str d) fields), ?_, ?_, ?_, ?_, ?_⟩
        · simp [saveMessage, fillRecord, hasKey_obj, find?_obj, setKey_obj,
            hT, hTy, hI, lookupKey_setFields_ne hIdTy]
        · simp [find?_obj, lookupKey_setFields_ne hTiTy, hT]
        · simp [find?_obj, lookupKey_setFields_self, hTy]
        · simp [find?_obj, lookupKey_setFields_ne hIdTy, hI]
        · intro k _ hk2 _
          simp [find?_obj, lookupKey_setFields_ne hk2]
      | none =>
        refine ⟨.obj (Json.setFields kId (.str (idOfTime t0))
          (Json.setFields kType (.str d) fields)), ?_, ?_, ?_, ?_, ?_⟩
        · simp [saveMessage, fillRecord, hasKey_obj, find?_obj, setKey_obj,
            hT, hTy, hI, lookupKey_setFields_ne hIdTy,
            lookupKey_setFields_ne hTiTy]
        · simp [find?_obj, lookupKey_setFields_ne hTiId,
            lookupKey_setFields_ne hTiTy, hT]
        · simp [find?_obj, lookupKey_setFields_ne hTyId,
            lookupKey_setFields_self, hTy]
        · simp [find?_obj, lookupKey_setFields_self, hI, hT]
        · intro k _ hk2 hk3
          simp [find?_obj, lookupKey_setFields_ne hk3,
            lookupKey_setFields_ne hk2]
  | none =>
    cases hTy : Json.lookupKey kType fields with
    | some w =>
      cases hI : Json.lookupKey kId fields with
      | some u =>
        refine ⟨.obj (Json.setFields kTime (.num now) fields), ?_, ?_, ?_, ?_, ?_⟩
        · simp [saveMessage, fillRecord, hasKey_obj, find?_obj, setKey_obj,
            hT, hTy, hI, lookupKey_setFields_ne hTyTi,
            lookupKey_setFields_ne hIdTi]
        · simp [find?_obj, lookupKey_setFields_self, hT]
        · simp [find?_obj, lookupKey_setFields_ne hTyTi, hTy]
        · simp [find?_obj, lookupKey_setFields_ne hIdTi, hI]
        · intro k hk1 _ _
          simp [find?_obj, lookupKey_setFields_ne hk1]
      | none =>
        refine ⟨.obj (Json.setFields kId (.str (idOfTime now))
          (Json.setFields kTime (.num now) fields)), ?_, ?_, ?_, ?_, ?_⟩
        · simp [saveMessage, fillRecord, hasKey_obj, find?_obj, setKey_obj,
            hT, hTy, hI, lookupKey_setFields_ne hTyTi,
            lookupKey_setFields_ne hIdTi, lookupKey_setFields_self]
        · simp [find?_obj, lookupKey_setFields_ne hTiId,
            lookupKey_setFields_self, hT]
        · simp [find?_obj, lookupKey_setFields_ne hTyId,
            lookupKey_setFields_ne hTyTi, hTy]
        · simp [find?_obj, lookupKey_setFields_self, hI, hT]
        · intro k hk1 _ hk3
          simp [find?_obj, lookupKey_setFields_ne hk3,
            lookupKey_setFields_ne hk1]
    | none =>
      cases hI : Json.lookupKey kId fields with
      | some u =>
        refine ⟨.obj (Json.setFields kType (.str d)
          (Json.setFields kTime (.num now) fields)), ?_, ?_, ?_, ?_, ?_⟩
        · simp [saveMessage, fillRecord, hasKey_obj, find?_obj, setKey_obj,
            hT, hTy, hI, lookupKey_setFields_ne hTyTi,
            lookupKey_setFields_ne hIdTy, lookupKey_setFields_ne hIdTi]
        · simp [find?_obj, lookupKey_setFields_ne hTiTy,
            lookupKey_setFields_self, hT]
        · simp [find?_obj, lookupKey_setFields_self, hTy]
        · simp [find?_obj, lookupKey_setFields_ne hIdTy,
            lookupKey_setFields_ne hIdTi, hI]
        · intro k hk1 hk2 _
          simp [find?_obj, lookupKey_setFields_ne hk2,
            lookupKey_setFields_ne hk1]
      | none =>
        refine ⟨.obj (Json.setFields kId (.str (idOfTime now))
          (Json.setFields kType (.str d)
            (Json.setFields kTime (.num now) fields))), ?_, ?_, ?_, ?_, ?_⟩
        · simp [saveMessage, fillRecord, hasKey_obj, find?_obj, setKey_obj,
            hT, hTy, hI, lookupKey_setFields_ne hTyTi,
            lookupKey_setFields_ne hIdTy, lookupKey_setFields_ne hIdTi,
            lookupKey_setFields_ne hTiTy, lookupKey_setFields_self]
        · simp [find?_obj, lookupKey_setFields_ne hTiId,
            lookupKey_setFields_ne hTiTy, lookupKey_setFields_self, hT]
        · simp [find?_obj, lookupKey_setFields_ne hTyId,
            lookupKey_setFields_self, hTy]
        · simp [find?_obj, lookupKey_setFields_self, hI, hT]
        · intro k hk1 hk2 hk3
          simp [find?_obj, lookupKey_setFields_ne hk3,
            lookupKey_setFields_ne hk2, lookupKey_setFields_ne hk1]

/-- Witness for `saveMessage_fields` at the empty object. -/
theorem saveMessage_fields_witness :
    ∃ m : Json,
      saveMessage (.obj []) tMsg 5 [] = some (m, pushCap MAX_HISTORY [] m) ∧
      m.find? kTime = (match Json.lookupKey kTime [] with
        | some v => some v
        | none => some (.num 5)) ∧
      m.find? kType = (match Json.lookupKey kType [] with
        | some v => some v
        | none => some (.str tMsg)) ∧
      m.find? kId = (match Json.lookupKey kId [] with
        | some v => some v
        | none => some (.str (idOfTime (match Json.lookupKey kTime [] with
            | some (Json.num t0) => t0
            | _ => 5)))) ∧
      (∀ k, k ≠ kTime → k ≠ kType → k ≠ kId →
        m.find? k = Json.lookupKey k []) :=
  saveMessage_fields [] tMsg 5 []
    (by intro v h; simp [Json.lookupKey] at h)

/-! ## ChatBot conversation lemmas -/

theorem buildUserLines_ok : ∀ (items : List Json),
    (∀ item ∈ items,
      (item.hasKey kUserId && item.hasKey kNickname && item.hasKey kContent) = true →
      ∃ uid nick content, item.find? kUserId = some (.str uid) ∧
        item.find? kNickname = some (.str nick) ∧
        item.find? kContent = some (.str content)) →
    buildUserLines items = .ok (items.filterMap lineOf) := by
  intro items
  induction items with
  | nil => intro _; rfl
  | cons item rest ih =>
    intro hW
    have hrest := ih (fun it hit h => hW it (List.mem_cons_of_mem _ hit) h)
    by_cases hall :
        (item.hasKey kUserId && item.hasKey kNickname && item.hasKey kContent) = true
    · obtain ⟨uid, nick, content, h1, h2, h3⟩ :=
        hW item (List.mem_cons_self _ _) hall
      simp [buildUserLines, hall, h1, h2, h3, hrest, List.filterMap_cons, lineOf]
    · simp [buildUserLines, hall, hrest, List.filterMap_cons, lineOf]

/-- C9 (amended): the conversation `ChatBot::process` sends is the fixed
system instruction followed by one attributed line per history record
that carries string-valued `userId`, `nickname`, and `content` fields,
in history order; records missing any of the three fields are skipped —
provided no record carries one of the three fields with a non-string
value (such a record makes the whole request abort instead, see the
counterexample). -/
theorem botAgent_conversation (items : List Json)
    (hW : ∀ item ∈ items,
      (item.hasKey kUserId && item.hasKey kNickname && item.hasKey kContent) = true →
      ∃ uid nick content, item.find? kUserId = some (.str uid) ∧
        item.find? kNickname = some (.str nick) ∧
        item.find? kContent = some (.str content)) :
    buildMessages (.arr items) =
      .ok ((rSystem, systemPrompt) :: items.filterMap lineOf) := by
  simp [buildMessages, buildUserLines_ok items hW]

/-- Counterexample to C9 as stated: this history record *contains*
`userId`, `nickname`, and `content`, so the claim says it is rewritten
into an attributed line of the conversation; instead the non-string
`content` raises a type error that aborts `ChatBot::process`, and no
conversation is sent at all. -/
theorem botAgent_conversation_cex :
    buildMessages (.arr [Json.obj [(kUserId, .str ("u1")),
      (kNickname, .str ("n1")), (kContent, .num 3)]]) = .error () := rfl

/-- Witness for `botAgent_conversation`: one well-formed record and one
record with no identity fields. -/
theorem botAgent_conversation_witness :
    buildMessages (.arr [Json.obj [(kUserId, .str ("u1")),
      (kNickname, .str ("n1")), (kContent, .str ("hello"))], Json.obj []]) =
      .ok ((rSystem, systemPrompt) ::
        List.filterMap lineOf [Json.obj [(kUserId, .str ("u1")),
          (kNickname, .str ("n1")), (kContent, .str ("hello"))], Json.obj []]) := by
  apply botAgent_conversation
  intro item hit hall
  simp only [List.mem_cons, List.not_mem_nil, or_false] at hit
  rcases hit with h | h
  · subst h
    exact ⟨("u1"), ("n1"), ("hello"), rfl, rfl, rfl⟩
  · subst h
    exact absurd hall (by decide)

/-! ## Session handler theorems -/

/-- C6: on a logged-in session, the logout procedure removes the
identity from the registry once, saves exactly one `logout`-kind record
and broadcasts exactly it; running the procedure again on the resulting
session (whether from a logout frame or from the transport disconnect,
both of which call it through the `loggedIn` guard) changes nothing and
broadcasts nothing. -/
theorem idempotent_logout (ctx : UserContext) (users : UserMap)
    (history : List Json) (now now2 : Int) (h : ctx.loggedIn = true) :
    ∃ m : Json,
      processLogout ctx users history now
        = ({ ctx with loggedIn := false }, removeUser users ctx.userId,
            pushCap MAX_HISTORY history m, [m]) ∧
      m.find? kType = some (.str tLogout) ∧
      processLogout { ctx with loggedIn := false }
          (removeUser users ctx.userId) (pushCap MAX_HISTORY history m) now2
        = ({ ctx with loggedIn := false }, removeUser users ctx.userId,
            pushCap MAX_HISTORY history m, []) := by
  refine ⟨Json.obj [(kType, .str tLogout), (kUserId, .str ctx.userId),
    (kNickname, .str ctx.nickname), (kAvatar, .str ctx.avatar),
    (kContent, .str logoutContent), (kTime, .num now),
    (kId, .str (idOfTime now))], ?_, rfl, rfl⟩
  have hsv : saveMessage (Json.obj [(kType, .str tLogout),
      (kUserId, .str ctx.userId), (kNickname, .str ctx.nickname),
      (kAvatar, .str ctx.avatar), (kContent, .str logoutContent)])
      tLogout now history
      = some (Json.obj [(kType, .str tLogout), (kUserId, .str ctx.userId),
          (kNickname, .str ctx.nickname), (kAvatar, .str ctx.avatar),
          (kContent, .str logoutContent), (kTime, .num now),
          (kId, .str (idOfTime now))],
        pushCap MAX_HISTORY history (Json.obj [(kType, .str tLogout),
          (kUserId, .str ctx.userId), (kNickname, .str ctx.nickname),
          (kAvatar, .str ctx.avatar), (kContent, .str logoutContent),
          (kTime, .num now), (kId, .str (idOfTime now))])) := rfl
  simp [processLogout, h, hsv]

/-- Witness for `idempotent_logout` at a concrete logged-in session. -/
theorem idempotent_logout_witness :
    ∃ m : Json,
      processLogout ⟨("u1"), ("n1"), ("a1"), true⟩
          [(("u1" : String), ⟨("u1"), ("n1"), ("a1")⟩)] [] 7
        = ((⟨("u1"), ("n1"), ("a1"), false⟩ : UserContext),
            removeUser [(("u1" : String), ⟨("u1"), ("n1"), ("a1")⟩)] ("u1"),
            pushCap MAX_HISTORY [] m, [m]) ∧
      m.find? kType = some (.str tLogout) ∧
      processLogout (⟨("u1"), ("n1"), ("a1"), false⟩ : UserContext)
          (removeUser [(("u1" : String), ⟨("u1"), ("n1"), ("a1")⟩)] ("u1"))
          (pushCap MAX_HISTORY [] m) 9
        = ((⟨("u1"), ("n1"), ("a1"), false⟩ : UserContext),
            removeUser [(("u1" : String), ⟨("u1"), ("n1"), ("a1")⟩)] ("u1"),
            pushCap MAX_HISTORY [] m, []) :=
  idempotent_logout ⟨("u1"), ("n1"), ("a1"), true⟩
    [(("u1" : String), ⟨("u1"), ("n1"), ("a1")⟩)] [] 7 9 rfl

/-- C10: a login frame whose `userId` field is absent or the empty
string is ignored outright: no reply frame (not even a `state:false`
echo), no broadcast, no save, no registry change, no error, and the
session context is untouched. -/
theorem login_empty_userId_noop (s : SState) (j : Json) (now : Int)
    (htype : j.valueStr kType strEmpty = .ok tLogin)
    (huid : j.valueStr kUserId strEmpty = .ok strEmpty) :
    handleFrame s (.json j) now =
      { state := s, sent := [], broadcasts := [], botConvs := [],
        forceClosed := false, erred := false } := by
  simp [handleFrame, htype, loginBranch, huid, okRes]

/-- Witness for `login_empty_userId_noop`: a `login` frame with no
`userId` key at all. -/
theorem login_empty_userId_noop_witness :
    handleFrame ⟨{}, [], []⟩ (.json (.obj [(kType, .str tLogin)])) 3 =
      { state := ⟨{}, [], []⟩, sent := [], broadcasts := [], botConvs := [],
        forceClosed := false, erred := false } :=
  login_empty_userId_noop ⟨{}, [], []⟩ (.obj [(kType, .str tLogin)]) 3 rfl rfl

/-- C4: a login frame carrying a well-typed identity whose `userId` is
already present in the registry: the requesting connection alone is sent
the frame echoed with `state:false`; nothing is saved to history,
nothing is broadcast, the registry is unchanged, and the session context
is untouched (an unauthenticated session stays unauthenticated). -/
theorem duplicate_login_rejected (s : SState) (j : Json) (now : Int)
    (uid nick avt : String)
    (htype : j.valueStr kType strEmpty = .ok tLogin)
    (huid : j.valueStr kUserId strEmpty = .ok uid)
    (hne : uid ≠ strEmpty)
    (hnick : j.valueStr kNickname unknownUserNickname = .ok nick)
    (havt : j.valueStr kAvatar strEmpty = .ok avt)
    (hdup : (findUser s.users uid).isSome = true) :
    handleFrame s (.json j) now =
      { state := s, sent := [.frame (j.setKey kState (.bool false))],
        broadcasts := [], botConvs := [], forceClosed := false,
        erred := false } := by
  simp [handleFrame, htype, loginBranch, huid, hne, hnick, havt, addUser, hdup]

/-- Witness for `duplicate_login_rejected`: a second login for `u1`. -/
theorem duplicate_login_rejected_witness :
    handleFrame ⟨{}, [(("u1" : String), ⟨("u1"), ("n1"), ("a1")⟩)], []⟩
        (.json (.obj [(kType, .str tLogin), (kUserId, .str ("u1"))])) 3 =
      { state := ⟨{}, [(("u1" : String), ⟨("u1"), ("n1"), ("a1")⟩)], []⟩,
        sent := [.frame ((Json.obj [(kType, .str tLogin),
          (kUserId, .str ("u1"))]).setKey kState (.bool false))],
        broadcasts := [], botConvs := [], forceClosed := false,
        erred := false } :=
  duplicate_login_rejected ⟨{}, [(("u1" : String), ⟨("u1"), ("n1"), ("a1")⟩)], []⟩
    (.obj [(kType, .str tLogin), (kUserId, .str ("u1"))]) 3
    ("u1") (unknownUserNickname) (strEmpty) rfl rfl (by decide) rfl rfl rfl

/-! ## Error-path lemmas for the frame handler -/

theorem loginBranch_cases (s : SState) (j : Json) (now : Int) :
    (loginBranch s j now).erred = false ∨ loginBranch s j now = errRes s := by
  unfold loginBranch
  repeat' split
  all_goals first | (left; rfl) | (right; rfl)

theorem msgBranch_cases (s : SState) (j : Json) (now : Int) :
    (msgBranch s j now).erred = false ∨
    ((msgBranch s j now).state.users = s.users ∧
     (msgBranch s j now).state.ctx = s.ctx ∧
     (msgBranch s j now).sent = [] ∧
     (msgBranch s j now).forceClosed = false ∧
     (msgBranch s j now).botConvs = [] ∧
     ∃ m, (msgBranch s j now).state.history = pushCap MAX_HISTORY s.history m ∧
       ((msgBranch s j now).broadcasts = [] ∨
        (msgBranch s j now).broadcasts = [m])) := by
  unfold msgBranch
  split
  · left; rfl
  · split
    · left; rfl
    · rename_i m h1 hsv
      split
      · right
        exact ⟨rfl, rfl, rfl, rfl, rfl, m, saveMessage_buf_eq hsv, Or.inl rfl⟩
      · split
        · split
          · left; rfl
          · right
            exact ⟨rfl, rfl, rfl, rfl, rfl, m, saveMessage_buf_eq hsv, Or.inr rfl⟩
        · left; rfl

theorem logoutBranch_erred_false (s : SState) (now : Int) :
    (logoutBranch s now).erred = false := by
  unfold logoutBranch
  split
  · rfl
  · rfl

theorem handleFrame_json (s : SState) (j : Json) (now : Int) :
    handleFrame s (.json j) now =
      match j.valueStr kType strEmpty with
      | .error _ => errRes s
      | .ok t =>
        if t = tLogin then loginBranch s j now
        else if t = tMsg then msgBranch s j now
        else if t = tLogout then logoutBranch s now
        else okRes s := rfl

/-- C3 (amended): when the processing of an inbound text frame raises a
caught parse or type error, the session does not crash, nothing is sent
back, the connection is not closed, no bot request goes out, and the
session's `UserContext` and the `UserRepository` are always exactly as
before.  The history and the broadcast set are also unchanged in every
case except a `msg` frame from a logged-in session whose error arises
*after* its save — a present non-string `content` field, or a bot
trigger over a malformed history record — in which case exactly the one
saved record is appended to history and either nothing or exactly that
record was broadcast before the error aborted processing. -/
theorem malformed_frame_dropped (s : SState) (f : Frame) (now : Int)
    (herr : (handleFrame s f now).erred = true) :
    (handleFrame s f now).state.users = s.users ∧
    (handleFrame s f now).state.ctx = s.ctx ∧
    (handleFrame s f now).sent = [] ∧
    (handleFrame s f now).forceClosed = false ∧
    (handleFrame s f now).botConvs = [] ∧
    (((handleFrame s f now).state.history = s.history ∧
      (handleFrame s f now).broadcasts = []) ∨
     ∃ m, (handleFrame s f now).state.history = pushCap MAX_HISTORY s.history m ∧
       ((handleFrame s f now).broadcasts = [] ∨
        (handleFrame s f now).broadcasts = [m])) := by
  cases f with
  | ping => simp [handleFrame] at herr
  | malformed => exact ⟨rfl, rfl, rfl, rfl, rfl, Or.inl ⟨rfl, rfl⟩⟩
  | json j =>
    cases ht : j.valueStr kType strEmpty with
    | error e =>
      have hH : handleFrame s (.json j) now = errRes s := by
        rw [handleFrame_json, ht]
      rw [hH]
      exact ⟨rfl, rfl, rfl, rfl, rfl, Or.inl ⟨rfl, rfl⟩⟩
    | ok t =>
      by_cases h1 : t = tLogin
      · have hH : handleFrame s (.json j) now = loginBranch s j now := by
          rw [handleFrame_json, ht, h1]
          rfl
        rw [hH] at herr ⊢
        rcases loginBranch_cases s j now with hf | heq
        · rw [hf] at herr
          simp at herr
        · rw [heq]
          exact ⟨rfl, rfl, rfl, rfl, rfl, Or.inl ⟨rfl, rfl⟩⟩
      · by_cases h2 : t = tMsg
        · have hH : handleFrame s (.json j) now = msgBranch s j now := by
            rw [handleFrame_json, ht, h2]
            rfl
          rw [hH] at herr ⊢
          rcases msgBranch_cases s j now with hf | hgood
          · rw [hf] at herr
            simp at herr
          · obtain ⟨g1, g2, g3, g4, g5, g6⟩ := hgood
            exact ⟨g1, g2, g3, g4, g5, Or.inr g6⟩
        · by_cases h3 : t = tLogout
          · have hH : handleFrame s (.json j) now = logoutBranch s now := by
              rw [handleFrame_json, ht, h3]
              rfl
            rw [hH] at herr
            rw [logoutBranch_erred_false] at herr
            simp at herr
          · have hH : handleFrame s (.json j) now = okRes s := by
              rw [handleFrame_json, ht]
              simp only [if_neg h1, if_neg h2, if_neg h3]
            rw [hH] at herr
            simp [okRes] at herr

/-- Counterexample to C3 as stated: a `msg` frame from a logged-in
session whose `content` is the number `3`.  `saveMessage` runs first
and appends the stamped record to history; only then does the log line
extract `content` via `j.value`, which raises the type error — so the
handler errs, yet the message history has changed (and the saved record
was never broadcast). -/
theorem malformed_frame_dropped_cex :
    (handleFrame ⟨⟨("u1"), ("n1"), ("a1"), true⟩,
        [(("u1" : String), ⟨("u1"), ("n1"), ("a1")⟩)], []⟩
      (.json (.obj [(kType, .str tMsg), (kContent, .num 3)])) 7).erred = true ∧
    (handleFrame ⟨⟨("u1"), ("n1"), ("a1"), true⟩,
        [(("u1" : String), ⟨("u1"), ("n1"), ("a1")⟩)], []⟩
      (.json (.obj [(kType, .str tMsg), (kContent, .num 3)])) 7).state.history
      ≠ ([] : List Json) :=
  ⟨rfl, fun hc => List.cons_ne_nil _ _ hc⟩

/-- Witness for `malformed_frame_dropped` at an unparseable frame. -/
theorem malformed_frame_dropped_witness :
    (handleFrame ⟨{}, [], []⟩ .malformed 0).state.users = ([] : UserMap) ∧
    (handleFrame ⟨{}, [], []⟩ .malformed 0).state.ctx = ({} : UserContext) ∧
    (handleFrame ⟨{}, [], []⟩ .malformed 0).sent = [] ∧
    (handleFrame ⟨{}, [], []⟩ .malformed 0).forceClosed = false ∧
    (handleFrame ⟨{}, [], []⟩ .malformed 0).botConvs = [] ∧
    (((handleFrame ⟨{}, [], []⟩ .malformed 0).state.history = ([] : List Json) ∧
      (handleFrame ⟨{}, [], []⟩ .malformed 0).broadcasts = []) ∨
     ∃ m, (handleFrame ⟨{}, [], []⟩ .malformed 0).state.history
        = pushCap MAX_HISTORY [] m ∧
       ((handleFrame ⟨{}, [], []⟩ .malformed 0).broadcasts = [] ∨
        (handleFrame ⟨{}, [], []⟩ .malformed 0).broadcasts = [m])) :=
  malformed_frame_dropped ⟨{}, [], []⟩ .malformed 0 rfl

/-! ## UserMap lemmas for the registry invariant -/

theorem findUser_append_singleton_ne {users : UserMap} {uid id : String}
    (h : id ≠ uid) (u : User) :
    findUser (users ++ [(uid, u)]) id = findUser users id := by
  induction users with
  | nil =>
    simp only [List.nil_append, findUser]
    rw [if_neg (fun he => h he.symm)]
  | cons p rest ih =>
    obtain ⟨k, w⟩ := p
    by_cases hk : k = id <;> simp [findUser, hk, ih]

theorem findUser_append_singleton_self {users : UserMap} {uid : String}
    (h : findUser users uid = none) (u : User) :
    findUser (users ++ [(uid, u)]) uid = some u := by
  induction users with
  | nil => simp [findUser]
  | cons p rest ih =>
    obtain ⟨k, w⟩ := p
    by_cases hk : k = uid
    · rw [findUser, if_pos hk] at h
      cases h
    · rw [findUser, if_neg hk] at h
      simp only [List.cons_append, findUser, if_neg hk]
      exact ih h

theorem findUser_removeUser_ne {users : UserMap} {uid id : String}
    (h : id ≠ uid) :
    findUser (removeUser users uid) id = findUser users id := by
  unfold removeUser
  induction users with
  | nil => rfl
  | cons p rest ih =>
    obtain ⟨k, w⟩ := p
    by_cases hk : k = uid
    · subst hk
      rw [List.eraseP_cons_of_pos (by simp)]
      rw [findUser, if_neg (fun he => h he.symm)]
    · rw [List.eraseP_cons_of_neg (by simp [hk])]
      by_cases hk2 : k = id
      · rw [findUser, if_pos hk2, findUser, if_pos hk2]
      · rw [findUser, if_neg hk2, findUser, if_neg hk2, ih]

theorem findUser_removeUser_self {users : UserMap} {uid : String}
    (hnd : (users.map Prod.fst).Nodup) :
    findUser (removeUser users uid) uid = none := by
  unfold removeUser
  induction users with
  | nil => rfl
  | cons p rest ih =>
    obtain ⟨k, w⟩ := p
    simp only [List.map_cons, List.nodup_cons] at hnd
    obtain ⟨hknot, hrest⟩ := hnd
    by_cases hk : k = uid
    · subst hk
      rw [List.eraseP_cons_of_pos (by simp)]
      exact findUser_eq_none_of_not_mem hknot
    · rw [List.eraseP_cons_of_neg (by simp [hk])]
      rw [findUser, if_neg hk]
      exact ih hrest

theorem keys_nodup_append {users : UserMap} {uid : String} (u : User)
    (hnd : (users.map Prod.fst).Nodup) (h : findUser users uid = none) :
    ((users ++ [(uid, u)]).map Prod.fst).Nodup := by
  rw [List.map_append, List.nodup_append]
  refine ⟨hnd, List.nodup_singleton uid, ?_⟩
  intro x hx hx'
  simp only [List.map_cons, List.map_nil, List.mem_singleton] at hx'
  subst hx'
  exact not_mem_of_findUser_eq_none h hx

theorem keys_nodup_remove {users : UserMap} (uid : String)
    (hnd : (users.map Prod.fst).Nodup) :
    ((removeUser users uid).map Prod.fst).Nodup :=
  hnd.sublist (List.Sublist.map Prod.fst (List.eraseP_sublist users))

/-! ## Session-list lemmas -/

theorem set_getElem?_self : ∀ {l : List Session} {i : Nat} {sess : Session},
    l[i]? = some sess → l.set i sess = l := by
  intro l
  induction l with
  | nil => intro i sess h; cases h
  | cons a rest ih =>
    intro i sess h
    cases i with
    | zero =>
      simp only [List.getElem?_cons_zero, Option.some.injEq] at h
      rw [List.set_cons_zero, h]
    | succ k =>
      simp only [List.getElem?_cons_succ] at h
      rw [List.set_cons_succ, ih h]

theorem owns_set_ne (g : GState) (i : Nat) (c2 : Session) (u2 : UserMap)
    (h2 : List Json) (i' : Nat) (id : String) (hii : i' ≠ i) :
    owns ⟨g.sessions.set i c2, u2, h2⟩ i' id ↔ owns g i' id := by
  unfold owns
  simp only [List.getElem?_set_ne (fun he => hii he.symm)]

theorem owns_set_self (g : GState) {i : Nat} {sess : Session} (c2 : Session)
    (u2 : UserMap) (h2 : List Json) (hget : g.sessions[i]? = some sess)
    (id : String) :
    owns ⟨g.sessions.set i c2, u2, h2⟩ i id ↔
      (c2.isOpen = true ∧ c2.ctx.loggedIn = true ∧ c2.ctx.userId = id) := by
  unfold owns
  have hlt : i < g.sessions.length := by
    rcases List.getElem?_eq_some_iff.mp hget with ⟨hl, _⟩
    exact hl
  simp only [List.getElem?_set_self hlt, Option.some.injEq]
  constructor
  · rintro ⟨s2, hs2, hrest⟩
    subst hs2
    exact hrest
  · intro hp
    exact ⟨c2, rfl, hp⟩

theorem owns_append_fresh (g : GState) (u2 : UserMap) (h2 : List Json)
    (i' : Nat) (id : String) :
    owns ⟨g.sessions ++ [⟨{}, true⟩], u2, h2⟩ i' id ↔ owns g i' id := by
  unfold owns
  by_cases hlt : i' < g.sessions.length
  · simp only [List.getElem?_append_left hlt]
  · have hge : g.sessions.length ≤ i' := Nat.le_of_not_lt hlt
    simp only [List.getElem?_append_right hge]
    constructor
    · rintro ⟨s2, hs2, ho, hl, hid⟩
      cases hd : i' - g.sessions.length with
      | zero =>
        rw [hd] at hs2
        simp only [List.getElem?_cons_zero, Option.some.injEq] at hs2
        subst hs2
        exact absurd hl (by decide)
      | succ k =>
        rw [hd] at hs2
        simp at hs2
    · rintro ⟨s2, hs2, _⟩
      rw [List.getElem?_eq_none hge] at hs2
      cases hs2

theorem owns_not_of_length_le (g : GState) {i : Nat}
    (h : g.sessions.length ≤ i) (id : String) : ¬ owns g i id := by
  rintro ⟨sess, hget, _⟩
  rw [List.getElem?_eq_none h] at hget
  cases hget

/-! ## Shape lemmas: what one handler invocation can do to registry and
context -/

theorem processLogout_shape (ctx : UserContext) (users : UserMap)
    (history : List Json) (now : Int) (h : ctx.loggedIn = true) :
    ∃ h' bcs, processLogout ctx users history now
      = ({ ctx with loggedIn := false }, removeUser users ctx.userId, h', bcs) := by
  unfold processLogout
  split
  · rename_i hfalse
    rw [hfalse] at h
    cases h
  · split
    · exact ⟨_, _, rfl⟩
    · exact ⟨_, _, rfl⟩

theorem loginBranch_shape (s : SState) (j : Json) (now : Int) :
    ((loginBranch s j now).state.users = s.users ∧
     (loginBranch s j now).state.ctx = s.ctx ∧
     (loginBranch s j now).forceClosed = false) ∨
    (∃ uid nick avt, uid ≠ strEmpty ∧ findUser s.users uid = none ∧
      (loginBranch s j now).state.users = s.users ++ [(uid, ⟨uid, nick, avt⟩)] ∧
      (loginBranch s j now).state.ctx = (⟨uid, nick, avt, true⟩ : UserContext) ∧
      (loginBranch s j now).forceClosed = false) := by
  unfold loginBranch
  split
  · left; exact ⟨rfl, rfl, rfl⟩
  · rename_i uid hueq
    split
    · left; exact ⟨rfl, rfl, rfl⟩
    · rename_i hne
      split
      · left; exact ⟨rfl, rfl, rfl⟩
      · rename_i nick hneq
        split
        · left; exact ⟨rfl, rfl, rfl⟩
        · rename_i avt haeq
          cases hfe : findUser s.users uid with
          | some u =>
            have ha : addUser s.users uid nick avt
                = ((false, userAlreadyOnlineMsg), s.users) := by
              simp [addUser, hfe]
            rw [ha]
            left
            exact ⟨rfl, rfl, rfl⟩
          | none =>
            have ha : addUser s.users uid nick avt
                = ((true, ("")), s.users ++ [(uid, ⟨uid, nick, avt⟩)]) := by
              simp [addUser, hfe]
            rw [ha]
            cases saveMessage (j.setKey kState (.bool true)) tLogin now s.history with
            | some p =>
              cases p with
              | mk m h1 =>
                right
                exact ⟨uid, nick, avt, hne, hfe, rfl, rfl, rfl⟩
            | none =>
              right
              exact ⟨uid, nick, avt, hne, hfe, rfl, rfl, rfl⟩

theorem msgBranch_quiet (s : SState) (j : Json) (now : Int) :
    (msgBranch s j now).state.users = s.users ∧
    (msgBranch s j now).state.ctx = s.ctx ∧
    (msgBranch s j now).forceClosed = false := by
  unfold msgBranch
  repeat' split
  all_goals exact ⟨rfl, rfl, rfl⟩

theorem logoutBranch_shape (s : SState) (now : Int) :
    (s.ctx.loggedIn = false ∧ logoutBranch s now = okRes s) ∨
    (s.ctx.loggedIn = true ∧
     (logoutBranch s now).state.users = removeUser s.users s.ctx.userId ∧
     (logoutBranch s now).state.ctx = { s.ctx with loggedIn := false }) := by
  unfold logoutBranch
  by_cases hl : s.ctx.loggedIn = false
  · rw [if_pos hl]
    left
    exact ⟨hl, rfl⟩
  · have hl' : s.ctx.loggedIn = true := by
      revert hl
      cases s.ctx.loggedIn <;> simp
    rw [if_neg hl]
    obtain ⟨h', bcs, hPL⟩ := processLogout_shape s.ctx s.users s.history now hl'
    rw [hPL]
    right
    exact ⟨hl', rfl, rfl⟩

theorem handleConnectionClosed_shape (s : SState) (now : Int) :
    (s.ctx.loggedIn = false ∧ (handleConnectionClosed s now).1 = s) ∨
    (s.ctx.loggedIn = true ∧
     (handleConnectionClosed s now).1.users = removeUser s.users s.ctx.userId ∧
     (handleConnectionClosed s now).1.ctx = { s.ctx with loggedIn := false }) := by
  unfold handleConnectionClosed
  by_cases hl : s.ctx.loggedIn = true
  · rw [if_pos hl]
    obtain ⟨h', bcs, hPL⟩ := processLogout_shape s.ctx s.users s.history now hl
    rw [hPL]
    right
    exact ⟨hl, rfl, rfl⟩
  · rw [if_neg hl]
    left
    refine ⟨?_, rfl⟩
    revert hl
    cases s.ctx.loggedIn <;> simp

theorem isLoginFrame_json (j : Json) :
    isLoginFrame (.json j) =
      (match j.valueStr kType strEmpty with
       | .ok t => t == tLogin
       | .error _ => false) := rfl

theorem handleFrame_shape (s : SState) (f : Frame) (now : Int) :
    ((handleFrame s f now).state.users = s.users ∧
     (handleFrame s f now).state.ctx = s.ctx ∧
     (handleFrame s f now).forceClosed = false) ∨
    (isLoginFrame f = true ∧
     ∃ uid nick avt, uid ≠ strEmpty ∧ findUser s.users uid = none ∧
       (handleFrame s f now).state.users = s.users ++ [(uid, ⟨uid, nick, avt⟩)] ∧
       (handleFrame s f now).state.ctx = (⟨uid, nick, avt, true⟩ : UserContext) ∧
       (handleFrame s f now).forceClosed = false) ∨
    (s.ctx.loggedIn = true ∧
     (handleFrame s f now).state.users = removeUser s.users s.ctx.userId ∧
     (handleFrame s f now).state.ctx = { s.ctx with loggedIn := false }) := by
  cases f with
  | ping => left; exact ⟨rfl, rfl, rfl⟩
  | malformed => left; exact ⟨rfl, rfl, rfl⟩
  | json j =>
    cases ht : j.valueStr kType strEmpty with
    | error e =>
      have hH : handleFrame s (.json j) now = errRes s := by
        rw [handleFrame_json, ht]
      rw [hH]
      left
      exact ⟨rfl, rfl, rfl⟩
    | ok t =>
      by_cases h1 : t = tLogin
      · have hH : handleFrame s (.json j) now = loginBranch s j now := by
          rw [handleFrame_json, ht, h1]
          rfl
        have hLF : isLoginFrame (.json j) = true := by
          rw [isLoginFrame_json, ht, h1]
          rfl
        rw [hH]
        rcases loginBranch_shape s j now with hq | hsucc
        · left; exact hq
        · right; left; exact ⟨hLF, hsucc⟩
      · by_cases h2 : t = tMsg
        · have hH : handleFrame s (.json j) now = msgBranch s j now := by
            rw [handleFrame_json, ht, h2]
            rfl
          rw [hH]
          left
          exact msgBranch_quiet s j now
        · by_cases h3 : t = tLogout
          · have hH : handleFrame s (.json j) now = logoutBranch s now := by
              rw [handleFrame_json, ht, h3]
              rfl
            rw [hH]
            rcases logoutBranch_shape s now with ⟨hl, heq⟩ | hlg
            · rw [heq]
              left
              exact ⟨rfl, rfl, rfl⟩
            · right; right; exact hlg
          · have hH : handleFrame s (.json j) now = okRes s := by
              rw [handleFrame_json, ht]
              simp only [if_neg h1, if_neg h2, if_neg h3]
            rw [hH]
            left
            exact ⟨rfl, rfl, rfl⟩

/-! ## Registry-invariant update lemmas -/

theorem strongInv_quiet_update (g : GState) {i : Nat} {sess : Session}
    (hget : g.sessions[i]? = some sess)
    (hinv : RegistryInv g) (hnd : (g.users.map Prod.fst).Nodup)
    (c2 : Session) (h2 : List Json)
    (hc2 : c2.ctx = sess.ctx) (ho2 : c2.isOpen = sess.isOpen) :
    StrongInv ⟨g.sessions.set i c2, g.users, h2⟩ := by
  have hc2' : c2 = sess := by
    have he : c2 = ⟨c2.ctx, c2.isOpen⟩ := rfl
    rw [he, hc2, ho2]
  rw [hc2', set_getElem?_self hget]
  exact ⟨hinv, hnd⟩

theorem strongInv_close_idle_update (g : GState) {i : Nat} {sess : Session}
    (hget : g.sessions[i]? = some sess)
    (hinv : RegistryInv g) (hnd : (g.users.map Prod.fst).Nodup)
    (c2 : Session) (h2 : List Json)
    (hLI : sess.ctx.loggedIn = false)
    (hc2 : c2.ctx.loggedIn = false) :
    StrongInv ⟨g.sessions.set i c2, g.users, h2⟩ := by
  have howns : ∀ i' id,
      owns ⟨g.sessions.set i c2, g.users, h2⟩ i' id ↔ owns g i' id := by
    intro i' id
    by_cases hii : i' = i
    · subst hii
      rw [owns_set_self g c2 g.users h2 hget]
      constructor
      · rintro ⟨_, hl2, _⟩
        rw [hc2] at hl2
        cases hl2
      · rintro ⟨sess2, hget2, _, hl2, _⟩
        rw [hget] at hget2
        injection hget2 with he
        subst he
        rw [hLI] at hl2
        cases hl2
    · exact owns_set_ne g i c2 g.users h2 i' id hii
  refine ⟨?_, hnd⟩
  intro id
  refine ⟨?_, ?_⟩
  · constructor
    · intro hsome
      obtain ⟨i', ho⟩ := (hinv id).1.mp hsome
      exact ⟨i', (howns i' id).mpr ho⟩
    · rintro ⟨i', ho⟩
      exact (hinv id).1.mpr ⟨i', (howns i' id).mp ho⟩
  · intro i1 i2 h1 h2'
    exact (hinv id).2 i1 i2 ((howns i1 id).mp h1) ((howns i2 id).mp h2')

theorem strongInv_login_update (g : GState) {i : Nat} {sess : Session}
    (hget : g.sessions[i]? = some sess)
    (hinv : RegistryInv g) (hnd : (g.users.map Prod.fst).Nodup)
    (c2 : Session) (h2 : List Json) (uid nick avt : String)
    (hsessLI : sess.ctx.loggedIn = false)
    (hnone : findUser g.users uid = none)
    (hc2 : c2.ctx = (⟨uid, nick, avt, true⟩ : UserContext))
    (ho2 : c2.isOpen = true) :
    StrongInv ⟨g.sessions.set i c2,
      g.users ++ [(uid, ⟨uid, nick, avt⟩)], h2⟩ := by
  constructor
  · intro id
    by_cases hid : id = uid
    · subst hid
      refine ⟨?_, ?_⟩
      · constructor
        · intro _
          refine ⟨i, ?_⟩
          rw [owns_set_self g c2 _ h2 hget]
          refine ⟨ho2, ?_, ?_⟩
          · rw [hc2]
          · rw [hc2]
        · intro _
          show (findUser (g.users ++ [(id, ⟨id, nick, avt⟩)]) id).isSome = true
          rw [findUser_append_singleton_self hnone]
          rfl
      · intro i1 i2 ho1 ho2'
        have key : ∀ i', owns ⟨g.sessions.set i c2,
            g.users ++ [(id, ⟨id, nick, avt⟩)], h2⟩ i' id → i' = i := by
          intro i' ho
          by_contra hii
          have ho' := (owns_set_ne g i c2 _ h2 i' id hii).mp ho
          have hsome : (findUser g.users id).isSome = true :=
            (hinv id).1.mpr ⟨i', ho'⟩
          rw [hnone] at hsome
          cases hsome
        rw [key i1 ho1, key i2 ho2']
    · have hreg : findUser (g.users ++ [(uid, ⟨uid, nick, avt⟩)]) id
          = findUser g.users id := findUser_append_singleton_ne hid _
      have howns : ∀ i', owns ⟨g.sessions.set i c2,
          g.users ++ [(uid, ⟨uid, nick, avt⟩)], h2⟩ i' id ↔ owns g i' id := by
        intro i'
        by_cases hii : i' = i
        · subst hii
          rw [owns_set_self g c2 _ h2 hget]
          constructor
          · rintro ⟨_, _, hid2⟩
            rw [hc2] at hid2
            exact absurd hid2.symm hid
          · rintro ⟨sess2, hget2, _, hl2, _⟩
            rw [hget] at hget2
            injection hget2 with he
            subst he
            rw [hsessLI] at hl2
            cases hl2
        · exact owns_set_ne g i c2 _ h2 i' id hii
      refine ⟨?_, ?_⟩
      · constructor
        · intro hsome
          have hsome' : (findUser g.users id).isSome = true := by
            have hsome2 : (findUser (g.users ++ [(uid, ⟨uid, nick, avt⟩)])
                id).isSome = true := hsome
            rw [hreg] at hsome2
            exact hsome2
          obtain ⟨i', ho⟩ := (hinv id).1.mp hsome'
          exact ⟨i', (howns i').mpr ho⟩
        · rintro ⟨i', ho⟩
          show (findUser (g.users ++ [(uid, ⟨uid, nick, avt⟩)]) id).isSome = true
          rw [hreg]
          exact (hinv id).1.mpr ⟨i', (howns i').mp ho⟩
      · intro i1 i2 h1 h2'
        exact (hinv id).2 i1 i2 ((howns i1).mp h1) ((howns i2).mp h2')
  · show ((g.users ++ [(uid, (⟨uid, nick, avt⟩ : User))]).map Prod.fst).Nodup
    exact keys_nodup_append _ hnd hnone

theorem strongInv_logout_update (g : GState) {i : Nat} {sess : Session}
    (hget : g.sessions[i]? = some sess)
    (hinv : RegistryInv g) (hnd : (g.users.map Prod.fst).Nodup)
    (c2 : Session) (h2 : List Json)
    (hopen : sess.isOpen = true)
    (hLI : sess.ctx.loggedIn = true)
    (hc2 : c2.ctx = { sess.ctx with loggedIn := false }) :
    StrongInv ⟨g.sessions.set i c2,
      removeUser g.users sess.ctx.userId, h2⟩ := by
  constructor
  · intro id
    by_cases hid : id = sess.ctx.userId
    · subst hid
      have hreg : findUser (removeUser g.users sess.ctx.userId)
          sess.ctx.userId = none := findUser_removeUser_self hnd
      have hnoown : ∀ i', ¬ owns ⟨g.sessions.set i c2,
          removeUser g.users sess.ctx.userId, h2⟩ i' sess.ctx.userId := by
        intro i' ho
        by_cases hii : i' = i
        · subst hii
          rw [owns_set_self g c2 _ h2 hget] at ho
          obtain ⟨_, hl2, _⟩ := ho
          rw [hc2] at hl2
          cases hl2
        · have ho' := (owns_set_ne g i c2 _ h2 i' _ hii).mp ho
          have hoi : owns g i sess.ctx.userId := ⟨sess, hget, hopen, hLI, rfl⟩
          exact hii ((hinv sess.ctx.userId).2 i' i ho' hoi)
      refine ⟨?_, ?_⟩
      · constructor
        · intro hsome
          have hsome2 : (findUser (removeUser g.users sess.ctx.userId)
              sess.ctx.userId).isSome = true := hsome
          rw [hreg] at hsome2
          cases hsome2
        · rintro ⟨i', ho⟩
          exact absurd ho (hnoown i')
      · intro i1 i2 h1 _
        exact absurd h1 (hnoown i1)
    · have hreg : findUser (removeUser g.users sess.ctx.userId) id
          = findUser g.users id := findUser_removeUser_ne hid
      have howns : ∀ i', owns ⟨g.sessions.set i c2,
          removeUser g.users sess.ctx.userId, h2⟩ i' id ↔ owns g i' id := by
        intro i'
        by_cases hii : i' = i
        · subst hii
          rw [owns_set_self g c2 _ h2 hget]
          constructor
          · rintro ⟨_, _, hid2⟩
            rw [hc2] at hid2
            exact absurd hid2.symm hid
          · rintro ⟨sess2, hget2, _, _, hid2⟩
            rw [hget] at hget2
            injection hget2 with he
            subst he
            exact absurd hid2.symm hid
        · exact owns_set_ne g i c2 _ h2 i' id hii
      refine ⟨?_, ?_⟩
      · constructor
        · intro hsome
          have hsome' : (findUser g.users id).isSome = true := by
            have hsome2 : (findUser (removeUser g.users sess.ctx.userId)
                id).isSome = true := hsome
            rw [hreg] at hsome2
            exact hsome2
          obtain ⟨i', ho⟩ := (hinv id).1.mp hsome'
          exact ⟨i', (howns i').mpr ho⟩
        · rintro ⟨i', ho⟩
          show (findUser (removeUser g.users sess.ctx.userId) id).isSome = true
          rw [hreg]
          exact (hinv id).1.mpr ⟨i', (howns i').mp ho⟩
      · intro i1 i2 h1 h2'
        exact (hinv id).2 i1 i2 ((howns i1).mp h1) ((howns i2).mp h2')
  · show (((removeUser g.users sess.ctx.userId).map Prod.fst)).Nodup
    exact keys_nodup_remove _ hnd

/-! ## Per-event invariant preservation -/

theorem step_connect_eq (g : GState) :
    step g .connect = ⟨g.sessions ++ [⟨{}, true⟩], g.users, g.history⟩ := rfl

theorem step_deliver_eq (g : GState) (i : Nat) (f : Frame) (now : Int) :
    step g (.deliver i f now) =
      match g.sessions[i]? with
      | some ⟨ctx0, true⟩ =>
        match handleFrame ⟨ctx0, g.users, g.history⟩ f now with
        | ⟨st, _, _, _, fc, _⟩ =>
          { sessions := g.sessions.set i ⟨st.ctx, !fc⟩,
            users := st.users, history := st.history }
      | some ⟨_, false⟩ => g
      | none => g := rfl

theorem step_disconnect_eq (g : GState) (i : Nat) (now : Int) :
    step g (.disconnect i now) =
      match g.sessions[i]? with
      | some ⟨ctx0, true⟩ =>
        match handleConnectionClosed ⟨ctx0, g.users, g.history⟩ now with
        | (st, _) =>
          { sessions := g.sessions.set i ⟨st.ctx, false⟩,
            users := st.users, history := st.history }
      | some ⟨_, false⟩ => g
      | none => g := rfl

theorem strongInv_init (h : List Json) : StrongInv (initialState h) := by
  refine ⟨?_, List.nodup_nil⟩
  intro id
  refine ⟨⟨?_, ?_⟩, ?_⟩
  · intro hsome
    exact Bool.noConfusion hsome
  · rintro ⟨i, sess, hget, _⟩
    exact Option.noConfusion hget
  · rintro i1 i2 ⟨sess, hget, _⟩ _
    exact Option.noConfusion hget

theorem strongInv_connect (g : GState) (h : StrongInv g) :
    StrongInv (step g .connect) := by
  obtain ⟨hinv, hnd⟩ := h
  rw [step_connect_eq]
  refine ⟨?_, hnd⟩
  intro id
  have htr : ∀ i', owns ⟨g.sessions ++ [⟨{}, true⟩], g.users, g.history⟩ i' id
      ↔ owns g i' id := fun i' => owns_append_fresh g g.users g.history i' id
  refine ⟨⟨?_, ?_⟩, ?_⟩
  · intro hsome
    obtain ⟨i', ho⟩ := (hinv id).1.mp hsome
    exact ⟨i', (htr i').mpr ho⟩
  · rintro ⟨i', ho⟩
    exact (hinv id).1.mpr ⟨i', (htr i').mp ho⟩
  · intro i1 i2 h1 h2
    exact (hinv id).2 i1 i2 ((htr i1).mp h1) ((htr i2).mp h2)

theorem strongInv_deliver (g : GState) (i : Nat) (f : Frame) (now : Int)
    (h : StrongInv g)
    (hNR : isLoginFrame f = true →
      ∀ sess, g.sessions[i]? = some sess → sess.ctx.loggedIn = false) :
    StrongInv (step g (.deliver i f now)) := by
  obtain ⟨hinv, hnd⟩ := h
  rw [step_deliver_eq]
  cases hget : g.sessions[i]? with
  | none => exact ⟨hinv, hnd⟩
  | some sess =>
    obtain ⟨ctx0, op⟩ := sess
    cases op with
    | false => exact ⟨hinv, hnd⟩
    | true =>
      show StrongInv (match handleFrame ⟨ctx0, g.users, g.history⟩ f now with
        | ⟨st, _, _, _, fc, _⟩ =>
          ({ sessions := g.sessions.set i ⟨st.ctx, !fc⟩,
             users := st.users, history := st.history } : GState))
      rcases handleFrame_shape ⟨ctx0, g.users, g.history⟩ f now with
        ⟨hq1, hq2, hq3⟩ | ⟨hLF, uid, nick, avt, hneU, hnone, hU, hC, hFC⟩ |
        ⟨hLI, hU, hC⟩
      · cases hr : handleFrame ⟨ctx0, g.users, g.history⟩ f now with
        | mk st sent bcs convs fc er =>
          rw [hr] at hq1 hq2 hq3
          have hu : st.users = g.users := hq1
          have hc : st.ctx = ctx0 := hq2
          have hfc : fc = false := hq3
          show StrongInv ⟨g.sessions.set i ⟨st.ctx, !fc⟩, st.users, st.history⟩
          rw [hu]
          exact strongInv_quiet_update g hget hinv hnd ⟨st.ctx, !fc⟩ st.history
            hc (by simp [hfc])
      · cases hr : handleFrame ⟨ctx0, g.users, g.history⟩ f now with
        | mk st sent bcs convs fc er =>
          rw [hr] at hU hC hFC
          have hu : st.users = g.users ++ [(uid, ⟨uid, nick, avt⟩)] := hU
          have hc : st.ctx = (⟨uid, nick, avt, true⟩ : UserContext) := hC
          have hfc : fc = false := hFC
          have hsessLI : ctx0.loggedIn = false := hNR hLF ⟨ctx0, true⟩ hget
          show StrongInv ⟨g.sessions.set i ⟨st.ctx, !fc⟩, st.users, st.history⟩
          rw [hu]
          exact strongInv_login_update g hget hinv hnd ⟨st.ctx, !fc⟩ st.history
            uid nick avt hsessLI hnone (by simp [hc]) (by simp [hfc])
      · cases hr : handleFrame ⟨ctx0, g.users, g.history⟩ f now with
        | mk st sent bcs convs fc er =>
          rw [hr] at hU hC
          have hu : st.users = removeUser g.users ctx0.userId := hU
          have hc : st.ctx = { ctx0 with loggedIn := false } := hC
          have hLI' : ctx0.loggedIn = true := hLI
          show StrongInv ⟨g.sessions.set i ⟨st.ctx, !fc⟩, st.users, st.history⟩
          rw [hu]
          exact strongInv_logout_update g hget hinv hnd ⟨st.ctx, !fc⟩ st.history
            rfl hLI' (by simp [hc])

theorem strongInv_disconnect (g : GState) (i : Nat) (now : Int)
    (h : StrongInv g) : StrongInv (step g (.disconnect i now)) := by
  obtain ⟨hinv, hnd⟩ := h
  rw [step_disconnect_eq]
  cases hget : g.sessions[i]? with
  | none => exact ⟨hinv, hnd⟩
  | some sess =>
    obtain ⟨ctx0, op⟩ := sess
    cases op with
    | false => exact ⟨hinv, hnd⟩
    | true =>
      show StrongInv (match handleConnectionClosed ⟨ctx0, g.users, g.history⟩ now with
        | (st, _) =>
          ({ sessions := g.sessions.set i ⟨st.ctx, false⟩,
             users := st.users, history := st.history } : GState))
      rcases handleConnectionClosed_shape ⟨ctx0, g.users, g.history⟩ now with
        ⟨hLI, heq⟩ | ⟨hLI, hU, hC⟩
      · cases hr : handleConnectionClosed ⟨ctx0, g.users, g.history⟩ now with
        | mk st bcs =>
          rw [hr] at heq
          have hst : st = (⟨ctx0, g.users, g.history⟩ : SState) := heq
          have hLI' : ctx0.loggedIn = false := hLI
          show StrongInv ⟨g.sessions.set i ⟨st.ctx, false⟩, st.users, st.history⟩
          rw [hst]
          exact strongInv_close_idle_update g hget hinv hnd
            ⟨ctx0, false⟩ g.history hLI' hLI'
      · cases hr : handleConnectionClosed ⟨ctx0, g.users, g.history⟩ now with
        | mk st bcs =>
          rw [hr] at hU hC
          have hu : st.users = removeUser g.users ctx0.userId := hU
          have hc : st.ctx = { ctx0 with loggedIn := false } := hC
          have hLI' : ctx0.loggedIn = true := hLI
          show StrongInv ⟨g.sessions.set i ⟨st.ctx, false⟩, st.users, st.history⟩
          rw [hu]
          exact strongInv_logout_update g hget hinv hnd ⟨st.ctx, false⟩
            st.history rfl hLI' (by simp [hc])

/-- C5 (amended): in every state reachable without ever delivering a
login frame to a session that is already logged in, an id is present in
the `UserRepository` iff exactly one live session is currently logged in
under it.  (The unrestricted claim fails: the login branch has no
`loggedIn` guard, so a logged-in session can re-login under a fresh id
and strand its old id in the registry — see the counterexample.) -/
theorem registry_coincidence (g : GState) (hg : ReachNR g) : RegistryInv g := by
  have hs : StrongInv g := by
    induction hg with
    | init h => exact strongInv_init h
    | connect g' _ ih => exact strongInv_connect g' ih
    | deliver g' i f now _ hNR ih => exact strongInv_deliver g' i f now ih hNR
    | disconnect g' i now _ ih => exact strongInv_disconnect g' i now ih
  exact hs.1

/-- Counterexample to C5 as stated: over unrestricted reachability the
coincidence fails.  Trace: connect; login as `u1`; then — still logged
in — login again as `u2`.  The login branch never checks `loggedIn`, so
the second login succeeds and overwrites the session context; `u1`
remains in the registry although no live session is logged in under it
(and no event can ever remove it again). -/
theorem registry_coincidence_cex :
    ¬ (∀ g : GState, Reach g → RegistryInv g) := by
  intro hall
  have hinv := hall
    (step (step (step (initialState []) .connect)
      (.deliver 0 (.json (.obj [(kType, .str tLogin), (kUserId, .str ("u1"))])) 1))
      (.deliver 0 (.json (.obj [(kType, .str tLogin), (kUserId, .str ("u2"))])) 2))
    (Reach.step _ _ (Reach.step _ _ (Reach.step _ _ (Reach.init []))))
  have hsome : (findUser (step (step (step (initialState []) .connect)
      (.deliver 0 (.json (.obj [(kType, .str tLogin), (kUserId, .str ("u1"))])) 1))
      (.deliver 0 (.json (.obj [(kType, .str tLogin), (kUserId, .str ("u2"))])) 2)).users
      ("u1")).isSome = true := rfl
  obtain ⟨i, sess, hget, hopen, hlog, hid⟩ := (hinv ("u1")).1.mp hsome
  have hss : (step (step (step (initialState []) .connect)
      (.deliver 0 (.json (.obj [(kType, .str tLogin), (kUserId, .str ("u1"))])) 1))
      (.deliver 0 (.json (.obj [(kType, .str tLogin), (kUserId, .str ("u2"))])) 2)).sessions
      = [⟨⟨("u2"), unknownUserNickname, (""), true⟩, true⟩] := rfl
  rw [hss] at hget
  cases i with
  | zero =>
    simp only [List.getElem?_cons_zero, Option.some.injEq] at hget
    subst hget
    exact absurd hid (by decide)
  | succ n =>
    simp only [List.getElem?_cons_succ] at hget
    simp at hget

/-- Witness for `registry_coincidence`: the state after one connection
and one successful login satisfies the coincidence. -/
theorem registry_coincidence_witness :
    RegistryInv (step (step (initialState []) .connect)
      (.deliver 0 (.json (.obj [(kType, .str tLogin), (kUserId, .str ("u1"))])) 5)) :=
  registry_coincidence _
    (ReachNR.deliver _ 0 _ 5 (ReachNR.connect _ (ReachNR.init []))
      (fun _ sess hsess => by
        have h0 : (step (initialState []) Event.connect).sessions[0]?
            = some (⟨{}, true⟩ : Session) := rfl
        rw [h0] at hsess
        injection hsess with he
        rw [← he]))

end ChatRoom
